import Mathlib

/-!
Shallow embedding of the texture-optimization core of dkb-texture-optimize-pro:
the configuration resolver (src/core/texture-config.ts, current generation),
the dimension planner (TextureOptimizer.calculateTargetDimensions in
src/core/optimizer.ts), the single-texture pipeline (TextureOptimizer.optimize)
and the batch orchestrator (src/core/batch-processor.ts).

Modelling conventions:
* JS numbers are modelled as Rat where fractional values can occur
  (quality, computed dimensions, reduction percentages) and as Nat where the
  source only ever holds non-negative integers (byte counts, metadata sizes).
* Node's path module, the glob library and the JS Set/sort built-ins are
  external collaborators; they are modelled structurally over the
  slash-separated segment structure of POSIX-style paths, for the normalized
  file paths the globber produces. String operations are implemented by
  structural recursion over the character list of the string so that every
  definition evaluates on concrete inputs.
* Asynchronous fallible steps (fs calls, sharp codec calls) are modelled by an
  environment record carrying each step's outcome as an Except value;
  a thrown/rejected step is an Except.error, mirroring promise rejection.
* Wall-clock timing (processingTime fields) is not modelled.
-/

/-! ## Configuration model (src/core/texture-config.ts) -/

/-- The enumerated maxSize values of the zod schema:
z.union of literals 32, 64, 128, 256, 512, 1024, 2048, 4096. -/
def maxSizeEnum : List Nat := [32, 64, 128, 256, 512, 1024, 2048, 4096]

/-- textureSettingsSchema: both fields optional. -/
structure TextureSettings where
  maxSize : Option Nat
  quality : Option Rat
  deriving DecidableEq, Repr

/-- textureEntrySchema: name and useDefault required, the rest optional. -/
structure TextureEntry where
  name : String
  useDefault : Bool
  maxSize : Option Nat
  quality : Option Rat
  deriving DecidableEq, Repr

/-- textureConfigSchema: defaultSettings plus a list of entries. -/
structure TextureConfig where
  defaultSettings : TextureSettings
  textures : List TextureEntry
  deriving DecidableEq, Repr

/-- Validation performed by textureSettingsSchema.parse: a present maxSize must
be one of the enumerated literals, a present quality must satisfy
z.number().min(1).max(100). -/
def validTextureSettings (s : TextureSettings) : Bool :=
  (match s.maxSize with
   | none => true
   | some m => maxSizeEnum.contains m) &&
  (match s.quality with
   | none => true
   | some q => decide (1 ≤ q) && decide (q ≤ 100))

/-- Validation performed by textureEntrySchema.parse. -/
def validTextureEntry (e : TextureEntry) : Bool :=
  (match e.maxSize with
   | none => true
   | some m => maxSizeEnum.contains m) &&
  (match e.quality with
   | none => true
   | some q => decide (1 ≤ q) && decide (q ≤ 100))

/-- Validation performed by textureConfigSchema.parse. -/
def validTextureConfig (c : TextureConfig) : Bool :=
  validTextureSettings c.defaultSettings && c.textures.all validTextureEntry

/-! ## Path helpers (model of Node's POSIX path module, built by structural
recursion over character lists) -/

/-- Splitting a character list at a separator; mirrors String.split
semantics: n separators yield n+1 (possibly empty) chunks. -/
def splitCharsAux (sep : Char) : List Char → List Char → List (List Char)
  | [], acc => [acc.reverse]
  | c :: rest, acc =>
    if c = sep then acc.reverse :: splitCharsAux sep rest []
    else splitCharsAux sep rest (c :: acc)

def splitChars (sep : Char) (cs : List Char) : List (List Char) :=
  splitCharsAux sep cs []

/-- Joining chunks with a separator: inverse of splitChars. -/
def joinChars (sep : Char) : List (List Char) → List Char
  | [] => []
  | [x] => x
  | x :: rest => x ++ sep :: joinChars sep rest

/-- Slash-separated segments of a path. -/
def pathSegments (p : String) : List String :=
  (splitChars '/' p.data).map String.mk

/-- path.basename: the final path segment. -/
def pathBasename (p : String) : String :=
  String.mk ((splitChars '/' p.data).getLastD [])

/-- path.dirname: all but the final segment; "." for a single-segment path. -/
def pathDirname (p : String) : String :=
  let segs := (splitChars '/' p.data).dropLast
  if segs.isEmpty then "." else String.mk (joinChars '/' segs)

/-- path.join of two segments; joining onto "" or "." yields the second
argument (Node normalizes a leading "./"). -/
def pathJoin (a b : String) : String :=
  if a = "" || a = "." then b else a ++ "/" ++ b

/-- JS String.prototype.toLowerCase for the ASCII texture names the tool
works with. -/
def toLowerString (s : String) : String :=
  String.mk (s.data.map Char.toLower)

/-- path.basename(p, path.extname(p)) applied to a bare file name: strips the
final dot-suffix unless there is no dot or the only dot is the leading one. -/
def stripExt (name : String) : String :=
  let parts := splitChars '.' name.data
  match parts with
  | [] => name
  | [_] => name
  | [[], _] => name
  | _ => String.mk (joinChars '.' parts.dropLast)

/-- path.extname restricted to the final segment: the extension text after
the final dot, "" when there is none or only a leading dot. -/
def extOf (p : String) : String :=
  let parts := splitChars '.' (pathBasename p).data
  match parts with
  | [] => ""
  | [_] => ""
  | [[], _] => ""
  | _ => String.mk (parts.getLastD [])

/-- The configuration lookup key of a texture path: basename without
extension, lowercased (getSettingsForTexture lines 186-188). -/
def textureKey (texturePath : String) : String :=
  toLowerString (stripExt (pathBasename texturePath))

/-- The textureMap built in the TextureConfigManager constructor: a Map keyed
by lowercased entry name, later entries overwriting earlier ones, so lookup
returns the last entry whose lowercased name equals the key. -/
def lookupTexture (textures : List TextureEntry) (key : String) : Option TextureEntry :=
  (textures.filter (fun t => toLowerString t.name == key)).getLast?

/-- TextureConfigManager.getSettingsForTexture: defaults when no entry matches
or the entry opts into defaults, otherwise a field-wise nullish-coalescing
merge of the entry over defaultSettings. -/
def getSettingsForTexture (c : TextureConfig) (texturePath : String) : TextureSettings :=
  let normalizedName := textureKey texturePath
  match lookupTexture c.textures normalizedName with
  | none => c.defaultSettings
  | some textureEntry =>
    if textureEntry.useDefault then
      c.defaultSettings
    else
      { maxSize := textureEntry.maxSize.orElse (fun _ => c.defaultSettings.maxSize),
        quality := textureEntry.quality.orElse (fun _ => c.defaultSettings.quality) }

/-- TextureConfigManager.hasCustomSettings: an entry exists and it does not opt
into defaults. -/
def hasCustomSettings (c : TextureConfig) (texturePath : String) : Bool :=
  match lookupTexture c.textures (textureKey texturePath) with
  | none => false
  | some e => !e.useDefault

/-! ## Dimension planner (TextureOptimizer.calculateTargetDimensions) -/

/-- Math.floor(Math.log2 n) for positive integers, by structural (fuelled)
recursion so that it evaluates under the kernel; the fuel n itself always
suffices. Agrees with Nat.log2 (proved below). -/
def log2Floor (fuel n : Nat) : Nat :=
  match fuel with
  | 0 => 0
  | fuel + 1 => if 2 ≤ n then log2Floor fuel (n / 2) + 1 else 0

/-- toPowerOf2 in the source: Math.pow(2, Math.floor(Math.log2(val))), exact
for the positive integer dimensions sharp metadata reports. -/
def toPowerOf2 (val : Nat) : Nat := 2 ^ log2Floor val val

/-- Math.floor(Math.log2 q) for a positive rational, via the bit lengths of
numerator and denominator. -/
def ratLog2Floor (q : Rat) : Int :=
  let a := q.num.toNat
  let b := q.den
  let d : Int := (log2Floor a a : Int) - (log2Floor b b : Int)
  if 0 ≤ d then
    if b * 2 ^ d.toNat ≤ a then d else d - 1
  else
    if b ≤ a * 2 ^ (-d).toNat then d else d - 1

/-- Math.pow(2, Math.floor(Math.log2 q)) on a JS number that may be
fractional: only ever reached in the dead aspect-ratio branch below. -/
def ratPowerOf2 (q : Rat) : Rat := (2 : Rat) ^ (ratLog2Floor q)

/-- Math.round: round half toward positive infinity. -/
def jsRound (x : Rat) : Int := ⌊x + 1 / 2⌋

/-- TextureOptimizer.calculateTargetDimensions (optimizer.ts lines 104-148).
Width and height are the positive integers of sharp metadata; the returned
dimensions are JS numbers, hence Rat. The powerOf2 flag selects between the
plain proportional branch and the power-of-2 branch; the aspect-ratio
recompute inside the power-of-2 branch is kept exactly as written even though
its guard can never hold after the preceding Math.min. -/
def calculateTargetDimensions (powerOf2 : Bool) (width height maxSize : Nat) :
    Rat × Rat :=
  if !powerOf2 then
    let scale : Rat := min 1 ((maxSize : Rat) / ((max width height : Nat) : Rat))
    (((jsRound ((width : Rat) * scale) : Int) : Rat),
     ((jsRound ((height : Rat) * scale) : Int) : Rat))
  else
    let targetWidth : Rat := ((toPowerOf2 width : Nat) : Rat)
    let targetHeight : Rat := ((toPowerOf2 height : Nat) : Rat)
    let targetWidth := min targetWidth (maxSize : Rat)
    let targetHeight := min targetHeight (maxSize : Rat)
    let pair :=
      if (maxSize : Rat) < targetWidth ∨ (maxSize : Rat) < targetHeight then
        let aspectRatio : Rat := (width : Rat) / (height : Rat)
        if (height : Rat) < (width : Rat) then
          ((maxSize : Rat), ratPowerOf2 ((maxSize : Rat) / aspectRatio))
        else
          (ratPowerOf2 ((maxSize : Rat) * aspectRatio), (maxSize : Rat))
      else (targetWidth, targetHeight)
    (max 64 (min pair.1 (maxSize : Rat)), max 64 (min pair.2 (maxSize : Rat)))

/-- The dimension planner of the spec: the power-of-2 path of
calculateTargetDimensions, which the current pipeline always takes (the CLI
documents powerOf2 as always true). -/
def plan (width height maxSize : Nat) : Rat × Rat :=
  calculateTargetDimensions true width height maxSize

/-! ## Optimizer pipeline (TextureOptimizer.optimize) -/

/-- Modelled from the spec: the OptimizerSettings record of the current
optimizer module is not among the provided sources (batch-processor.ts only
imports its type); per §4.3 and the batch-processor call site it carries the
detected format plus concrete (non-optional) quality and maxSize. -/
structure OptimizerSettings where
  format : String
  quality : Rat
  maxSize : Nat
  deriving DecidableEq, Repr

/-- A width/height/byte-count triple of an OptimizationResult. -/
structure SizeInfo where
  width : Rat
  height : Rat
  bytes : Nat
  deriving DecidableEq, Repr

/-- OptimizationResult (optimizer.ts lines 6-16), without the wall-clock
processingTime field. -/
structure OptimizationResult where
  success : Bool
  inputPath : String
  outputPath : Option String
  originalSize : SizeInfo
  optimizedSize : SizeInfo
  reductionPercent : Rat
  settings : OptimizerSettings
  error : Option String
  deriving DecidableEq, Repr

/-- Outcomes of the suspendable, fallible steps of one file's processing:
the backup-existence probe (fs.access), the backup copy (mkdir + copyFile in
backupOriginal), the source read (fs.readFile), the metadata probe (sharp
metadata), the resize/compress encode (pipeline.toBuffer) and the output
write (mkdir + writeFile). An Except.error models a rejected promise. -/
structure FileEnv where
  backupExists : Bool
  backupCopy : Except String Unit
  readFileStep : Except String Nat
  metadataStep : Except String (Nat × Nat)
  encodeStep : Except String Nat
  writeStep : Except String Unit

/-- The catch branch of TextureOptimizer.optimize: a failed result with
zeroed sizes and the error message. -/
def failedResult (inputPath : String) (settings : OptimizerSettings)
    (e : String) : OptimizationResult :=
  { success := false, inputPath := inputPath, outputPath := none,
    originalSize := { width := 0, height := 0, bytes := 0 },
    optimizedSize := { width := 0, height := 0, bytes := 0 },
    reductionPercent := 0, settings := settings, error := some e }

/-- TextureOptimizer.optimize: read, probe, plan, encode, write inside one
try/catch whose catch converts any step failure into a success=false result.
The power-of-2 path of calculateTargetDimensions is always taken in the
current pipeline (the CLI documents powerOf2 as always true). -/
def optimize (env : FileEnv) (settings : OptimizerSettings)
    (inputPath outputPath : String) : OptimizationResult :=
  match env.readFileStep with
  | Except.error e => failedResult inputPath settings e
  | Except.ok originalBytes =>
    match env.metadataStep with
    | Except.error e => failedResult inputPath settings e
    | Except.ok wh =>
      let targetDims := calculateTargetDimensions true wh.1 wh.2 settings.maxSize
      match env.encodeStep with
      | Except.error e => failedResult inputPath settings e
      | Except.ok outputBytes =>
        match env.writeStep with
        | Except.error e => failedResult inputPath settings e
        | Except.ok _ =>
          { success := true, inputPath := inputPath,
            outputPath := some outputPath,
            originalSize :=
              { width := (wh.1 : Rat), height := (wh.2 : Rat),
                bytes := originalBytes },
            optimizedSize :=
              { width := targetDims.1, height := targetDims.2,
                bytes := outputBytes },
            reductionPercent :=
              (((originalBytes : Rat) - (outputBytes : Rat)) /
                (originalBytes : Rat)) * 100,
            settings := settings, error := none }

/-! ## Glob matching (model of the external glob library, for the subset of
pattern syntax the processor uses: literals, `*`, `**` and brace
alternation) -/

/-- The suffixes of a character list, longest first. -/
def charSuffixes : List Char → List (List Char)
  | [] => [[]]
  | c :: rest => (c :: rest) :: charSuffixes rest

/-- Single-segment wildcard matching of a brace-free pattern: `*` matches any
run of characters (equivalently: the rest of the pattern matches some
suffix). -/
def matchChars : List Char → List Char → Bool
  | [], s => s.isEmpty
  | p :: ps, s =>
    if p = '*' then (charSuffixes s).any (fun t => matchChars ps t)
    else
      match s with
      | [] => false
      | c :: rest => (p == c) && matchChars ps rest

/-- Splits the body of a brace group at its commas, returning the
alternatives and the text after the closing brace; none when unclosed. -/
def splitAlts : List Char → List Char → List (List Char) →
    Option (List (List Char) × List Char)
  | [], _, _ => none
  | '}' :: rest, cur, acc => some ((cur.reverse :: acc).reverse, rest)
  | ',' :: rest, cur, acc => splitAlts rest [] (cur.reverse :: acc)
  | c :: rest, cur, acc => splitAlts rest (c :: cur) acc

/-- Expands one level of brace alternation, fuelled by the text length. -/
def expandSegAux : Nat → List Char → List (List Char)
  | _, [] => [[]]
  | 0, cs => [cs]
  | fuel + 1, '{' :: rest =>
    match splitAlts rest [] [] with
    | some (alts, after) =>
      let suffixes := expandSegAux fuel after
      alts.flatMap (fun a => suffixes.map (fun s => a ++ s))
    | none => (expandSegAux fuel rest).map (fun t => '{' :: t)
  | fuel + 1, c :: rest => (expandSegAux fuel rest).map (fun t => c :: t)

/-- All brace-free expansions of a segment pattern. -/
def expandSeg (s : String) : List String :=
  (expandSegAux (s.data.length + 1) s.data).map String.mk

/-- One path segment against one pattern segment. -/
def segMatch (pat seg : String) : Bool :=
  (expandSeg pat).any (fun p => matchChars p.data seg.data)

/-- The suffixes of a segment list, longest first. -/
def segSuffixes : List String → List (List String)
  | [] => [[]]
  | s :: rest => (s :: rest) :: segSuffixes rest

/-- Segment-list glob matching: `**` matches any number of segments
(equivalently: the rest of the pattern matches some suffix). -/
def globSegsMatch : List String → List String → Bool
  | [], segs => segs.isEmpty
  | p :: ps, segs =>
    if p = "**" then (segSuffixes segs).any (fun t => globSegsMatch ps t)
    else
      match segs with
      | [] => false
      | s :: rest => segMatch p s && globSegsMatch ps rest

/-- Whole-path glob matching. -/
def globMatch (pattern path : String) : Bool :=
  globSegsMatch (pathSegments pattern) (pathSegments path)

/-! ## Batch orchestrator (src/core/batch-processor.ts) -/

/-- BatchProcessorOptions: optional fields are absent when the caller omits
them. -/
structure BatchProcessorOptions where
  basePath : String
  outputDir : Option String
  textureConfigPath : String
  patterns : Option (List String)
  exclude : Option (List String)
  concurrency : Option Nat
  verbose : Option Bool
  inPlaceMode : Option Bool

/-- The options record after the constructor's defaulting. -/
structure ResolvedOptions where
  basePath : String
  outputDir : Option String
  textureConfigPath : String
  patterns : List String
  exclude : List String
  concurrency : Nat
  verbose : Bool
  inPlaceMode : Bool

/-- The default include patterns built from SUPPORTED_FORMATS. -/
def defaultPatterns : List String := ["**/*.\x7bpng,jpg,jpeg,webp\x7d"]

/-- The default exclusions, including the reserved backup subdirectory. -/
def defaultExclude : List String :=
  ["**/node_modules/**", "**/_originalTexture/**"]

/-- The constructor's `{ defaults..., ...options }` merge: a caller-supplied
field replaces the default wholesale. -/
def resolveOptions (o : BatchProcessorOptions) : ResolvedOptions :=
  { basePath := o.basePath, outputDir := o.outputDir,
    textureConfigPath := o.textureConfigPath,
    patterns := o.patterns.getD defaultPatterns,
    exclude := o.exclude.getD defaultExclude,
    concurrency := o.concurrency.getD 10,
    verbose := o.verbose.getD false,
    inPlaceMode := o.inPlaceMode.getD o.outputDir.isNone }

/-- `[...new Set(allFiles)]`: first-occurrence deduplication. -/
def dedupAux (seen : List String) : List String → List String
  | [] => []
  | x :: rest =>
    if seen.contains x then dedupAux seen rest
    else x :: dedupAux (x :: seen) rest

def dedupFirst (l : List String) : List String := dedupAux [] l

/-- Lexicographic comparison of character lists: the code-unit order JS
string comparison uses (identical to code-point order on ASCII paths). -/
def charListLe : List Char → List Char → Bool
  | [], _ => true
  | _ :: _, [] => false
  | a :: as, b :: bs => if a = b then charListLe as bs else decide (a < b)

def stringLe (a b : String) : Bool := charListLe a.data b.data

/-- JS Array.prototype.sort with default lexicographic comparison, modelled
as insertion sort. -/
def insertSorted (a : String) : List String → List String
  | [] => [a]
  | b :: rest => if stringLe a b then a :: b :: rest else b :: insertSorted a rest

def sortStrings (l : List String) : List String := l.foldr insertSorted []

/-- BatchProcessor.findTextures over an abstract file listing: for each
pattern, the files matching it and no exclusion; then dedup and sort. -/
def findTextures (fsFiles : List String) (opts : ResolvedOptions) :
    List String :=
  let allFiles := opts.patterns.flatMap (fun pattern =>
    fsFiles.filter (fun f =>
      globMatch pattern f && !(opts.exclude.any (fun e => globMatch e f))))
  sortStrings (dedupFirst allFiles)

/-- True when the path lies inside a reserved backup subdirectory. -/
def inBackupDir (p : String) : Bool :=
  ((pathSegments p).dropLast).contains "_originalTexture"

/-- The backup companion path of a file: `_originalTexture/<basename>` next
to it. -/
def backupPathFor (inputPath : String) : String :=
  pathJoin (pathJoin (pathDirname inputPath) "_originalTexture")
    (pathBasename inputPath)

/-- path.relative for a file below the base (glob yields base-rooted paths). -/
def pathRelative (base p : String) : String :=
  if p = base then ""
  else
    let baseSlash := base.data ++ ['/']
    if baseSlash.isPrefixOf p.data then String.mk (p.data.drop baseSlash.length)
    else p

/-- The mirrored destination under the output root in output-directory
mode. -/
def mirrorOutputPath (opts : ResolvedOptions) (inputPath : String) : String :=
  let relativePath := pathRelative opts.basePath inputPath
  pathJoin (pathJoin (opts.outputDir.getD "") (pathDirname relativePath))
    (pathBasename relativePath)

/-- Source-of-truth, destination and re-optimization tag per file
(processTexture lines 105-157). -/
structure SourcePlan where
  sourcePath : String
  outputPath : String
  isReoptimization : Bool
  deriving DecidableEq, Repr

/-- The mode-dependent source/destination selection of processTexture: in
in-place mode an existing backup is the source, otherwise the live file is
backed up first (a failed copy throws); in output-directory mode an existing
sibling backup is the source. -/
def selectSource (opts : ResolvedOptions) (env : FileEnv)
    (inputPath : String) : Except String SourcePlan :=
  if opts.inPlaceMode then
    let backupPath := backupPathFor inputPath
    if env.backupExists then
      Except.ok { sourcePath := backupPath, outputPath := inputPath,
                  isReoptimization := true }
    else
      match env.backupCopy with
      | Except.ok _ =>
        Except.ok { sourcePath := inputPath, outputPath := inputPath,
                    isReoptimization := false }
      | Except.error e => Except.error e
  else
    let outputPath := mirrorOutputPath opts inputPath
    if env.backupExists then
      Except.ok { sourcePath := backupPathFor inputPath,
                  outputPath := outputPath, isReoptimization := true }
    else
      Except.ok { sourcePath := inputPath, outputPath := outputPath,
                  isReoptimization := false }

/-- The jpeg-folding format detection of processTexture lines 91-95. -/
def detectFormat (p : String) : String :=
  let ext := toLowerString (extOf p)
  if ext = "jpeg" then "jpg" else ext

/-- The optimizer settings built in processTexture lines 98-103: resolved
settings with format appended and quality/maxSize defaulted by `?? 80` and
`?? 512`. -/
def mkOptimizerSettings (settings : TextureSettings) (format : String) :
    OptimizerSettings :=
  { format := format,
    quality := settings.quality.getD 80,
    maxSize := settings.maxSize.getD 512 }

/-- BatchProcessor.processTexture: resolve settings, pick source and
destination, run the optimizer. A backup-copy failure propagates as an
Except.error (backupOriginal rethrows and the call is not guarded); the
optimizer itself never throws, so the final catch-and-rethrow is inert. -/
def processTexture (cfg : TextureConfig) (opts : ResolvedOptions)
    (env : FileEnv) (inputPath : String) : Except String OptimizationResult :=
  let settings := getSettingsForTexture cfg inputPath
  let optimizerSettings := mkOptimizerSettings settings (detectFormat inputPath)
  match selectSource opts env inputPath with
  | Except.error e => Except.error e
  | Except.ok sp =>
    Except.ok (optimize env optimizerSettings sp.sourcePath sp.outputPath)

/-- BatchProcessor.processAll after configuration load: discover files and
collect every per-file result. The chunked Promise.all structure is modelled
as sequential collection: one rejected per-file promise rejects its chunk's
Promise.all and with it the whole run, which is exactly Except's
short-circuiting. -/
def processAll (cfg : TextureConfig) (opts : ResolvedOptions)
    (fsFiles : List String) (envOf : String → FileEnv) :
    Except String (List OptimizationResult) :=
  (findTextures fsFiles opts).mapM (fun p => processTexture cfg opts (envOf p) p)

/-- Proof-side description of the result processTexture yields whenever the
backup step does not throw. -/
def processTextureResult (cfg : TextureConfig) (opts : ResolvedOptions)
    (env : FileEnv) (inputPath : String) : OptimizationResult :=
  let settings := getSettingsForTexture cfg inputPath
  let optimizerSettings := mkOptimizerSettings settings (detectFormat inputPath)
  match selectSource opts env inputPath with
  | Except.error e => failedResult inputPath optimizerSettings e
  | Except.ok sp => optimize env optimizerSettings sp.sourcePath sp.outputPath

/-! ## Concrete fixtures -/

/-- The scenario document of §8: default 512/80, one non-default entry
hero → 1024/90. -/
def heroConfig : TextureConfig :=
  { defaultSettings := { maxSize := some 512, quality := some 80 },
    textures := [{ name := "hero", useDefault := false,
                   maxSize := some 1024, quality := some 90 }] }

/-- A schema-valid document whose defaultSettings omit maxSize and carry the
non-integral quality 50.5. -/
def emptyDefaultsConfig : TextureConfig :=
  { defaultSettings := { maxSize := none, quality := some (mkRat 101 2) },
    textures := [] }

/-- Caller options for an in-place run with every optional field omitted. -/
def inPlaceOptions : BatchProcessorOptions :=
  { basePath := "assets", outputDir := none,
    textureConfigPath := "texture-optimize-pro.json",
    patterns := none, exclude := none, concurrency := none,
    verbose := none, inPlaceMode := none }

/-- Caller options for an output-directory run that supplies an empty
exclusion list. -/
def noExcludeOptions : BatchProcessorOptions :=
  { inPlaceOptions with outputDir := some "out", exclude := some [] }

/-- A per-file environment in which every step succeeds. -/
def okFileEnv : FileEnv :=
  { backupExists := false, backupCopy := Except.ok (),
    readFileStep := Except.ok 1000, metadataStep := Except.ok (900, 600),
    encodeStep := Except.ok 400, writeStep := Except.ok () }

/-- A per-file environment whose backup copy fails. -/
def badCopyEnv : FileEnv :=
  { okFileEnv with backupCopy := Except.error "EACCES: permission denied" }

/-- A per-file environment whose source read fails. -/
def badReadEnv : FileEnv :=
  { okFileEnv with readFileStep := Except.error "unsupported image format" }

/-- A per-file environment in which a backup companion already exists. -/
def backupEnv : FileEnv := { okFileEnv with backupExists := true }

/-- Environments for a two-file run whose first file fails to decode. -/
def mixedEnvOf (p : String) : FileEnv :=
  if p == "assets/bad.png" then badReadEnv else okFileEnv

/-- Environments for a two-file run whose first file fails its backup copy. -/
def copyFailEnvOf (p : String) : FileEnv :=
  if p == "assets/bad.png" then badCopyEnv else okFileEnv

/-- Decidable equality for run outcomes, needed to evaluate concrete batch
runs. -/
instance exceptDecidableEq {ε α : Type} [DecidableEq ε] [DecidableEq α] :
    DecidableEq (Except ε α) := fun x y =>
  match x, y with
  | Except.error a, Except.error b =>
    if h : a = b then Decidable.isTrue (by rw [h])
    else Decidable.isFalse (by intro hc; cases hc; exact h rfl)
  | Except.error _, Except.ok _ => Decidable.isFalse (by intro hc; cases hc)
  | Except.ok _, Except.error _ => Decidable.isFalse (by intro hc; cases hc)
  | Except.ok a, Except.ok b =>
    if h : a = b then Decidable.isTrue (by rw [h])
    else Decidable.isFalse (by intro hc; cases hc; exact h rfl)

/-! ## Helper lemmas -/

/-- The fuelled base-2 logarithm agrees with Nat.log2 whenever the fuel is
adequate. -/
theorem log2Floor_eq_log2 : ∀ fuel n, n ≤ fuel → log2Floor fuel n = Nat.log2 n := by
  intro fuel
  induction fuel with
  | zero =>
    intro n hn
    interval_cases n
    simp [log2Floor, Nat.log2]
  | succ fuel ih =>
    intro n hn
    rw [log2Floor, Nat.log2]
    by_cases h2 : 2 ≤ n
    · rw [if_pos h2, if_pos h2, ih]
      have : n / 2 < n := Nat.div_lt_self (by omega) (by omega)
      omega
    · rw [if_neg h2, if_neg h2]

/-- toPowerOf2 is the power-of-2 floor. -/
theorem toPowerOf2_eq (val : Nat) : toPowerOf2 val = 2 ^ Nat.log2 val := by
  rw [toPowerOf2, log2Floor_eq_log2 val val le_rfl]

/-- In the power-of-2 branch the aspect-ratio recompute is dead and the
result is the integer clamp max 64 (min (toPowerOf2 d) maxSize) on each
dimension. -/
theorem calculateTargetDimensions_pow2 (w h m : Nat) :
    calculateTargetDimensions true w h m =
      (((max 64 (min (toPowerOf2 w) m) : Nat) : Rat),
       ((max 64 (min (toPowerOf2 h) m) : Nat) : Rat)) := by
  unfold calculateTargetDimensions
  have hguard : ¬((m : Rat) < min ((toPowerOf2 w : Nat) : Rat) (m : Rat) ∨
      (m : Rat) < min ((toPowerOf2 h : Nat) : Rat) (m : Rat)) := by
    push_neg
    exact ⟨min_le_right _ _, min_le_right _ _⟩
  rw [if_neg (by simp)]
  dsimp only
  rw [if_neg hguard]
  push_cast
  simp [min_assoc]

/-- Clamping one power of two by another and flooring at 64 yields a power
of two. -/
theorem pow2_clamp (a k : Nat) : ∃ i, max 64 (min (2 ^ a) (2 ^ k)) = 2 ^ i := by
  rcases le_total a k with hak | hak
  · rw [min_eq_left (Nat.pow_le_pow_right (by norm_num) hak)]
    rcases le_total 64 (2 ^ a) with h64 | h64
    · exact ⟨a, max_eq_right h64⟩
    · exact ⟨6, by rw [max_eq_left h64]; norm_num⟩
  · rw [min_eq_right (Nat.pow_le_pow_right (by norm_num) hak)]
    rcases le_total 64 (2 ^ k) with h64 | h64
    · exact ⟨k, max_eq_right h64⟩
    · exact ⟨6, by rw [max_eq_left h64]; norm_num⟩

/-- C7: for every maxSize in the enumerated set and all original dimensions
at least 1, both planned dimensions are exact powers of two. -/
theorem plan_dimensions_are_powers_of_two (w h m : Nat)
    (hm : m ∈ maxSizeEnum) (hw : 1 ≤ w) (hh : 1 ≤ h) :
    (∃ i : Nat, (plan w h m).1 = ((2 ^ i : Nat) : Rat)) ∧
    (∃ j : Nat, (plan w h m).2 = ((2 ^ j : Nat) : Rat)) := by
  have hpow : ∃ k, m = 2 ^ k := by
    fin_cases hm
    exacts [⟨5, rfl⟩, ⟨6, rfl⟩, ⟨7, rfl⟩, ⟨8, rfl⟩, ⟨9, rfl⟩, ⟨10, rfl⟩,
      ⟨11, rfl⟩, ⟨12, rfl⟩]
  obtain ⟨k, rfl⟩ := hpow
  rw [plan, calculateTargetDimensions_pow2]
  constructor
  · obtain ⟨i, hi⟩ := pow2_clamp (log2Floor w w) k
    exact ⟨i, by rw [show toPowerOf2 w = 2 ^ log2Floor w w from rfl, hi]⟩
  · obtain ⟨j, hj⟩ := pow2_clamp (log2Floor h h) k
    exact ⟨j, by rw [show toPowerOf2 h = 2 ^ log2Floor h h from rfl, hj]⟩

/-- Witness for C7 at the 900 by 600, cap 1024 input. -/
theorem plan_pow2_witness :
    (∃ i : Nat, (plan 900 600 1024).1 = ((2 ^ i : Nat) : Rat)) ∧
    (∃ j : Nat, (plan 900 600 1024).2 = ((2 ^ j : Nat) : Rat)) :=
  plan_dimensions_are_powers_of_two 900 600 1024 (by decide) (by decide) (by decide)

/-- C2: the failing input. With maxSize 32 the final clamp
max(64, min(dim, 32)) yields 64 on both dimensions, exceeding the requested
maximum of 32 instead of flooring at maxSize. -/
theorem plan_maxSize32_exceeds_cap :
    plan 100 100 32 = (64, 64) ∧ ¬((plan 100 100 32).1 ≤ ((32 : Nat) : Rat)) := by
  rw [plan, calculateTargetDimensions_pow2]
  norm_num

/-- C8: the scenario document resolves hero.png to maxSize 1024 and
quality 90, and the planner maps 900 by 600 under cap 1024 to exactly
(512, 512). -/
theorem hero_scenario :
    getSettingsForTexture heroConfig "hero.png" =
      { maxSize := some 1024, quality := some 90 } ∧
    plan 900 600 1024 = (512, 512) := by
  constructor
  · decide
  · have h1 : max 64 (min (toPowerOf2 900) 1024) = 512 := by decide
    have h2 : max 64 (min (toPowerOf2 600) 1024) = 512 := by decide
    rw [plan, calculateTargetDimensions_pow2, h1, h2]
    norm_num

/-- A looked-up entry is one of the document's entries. -/
theorem lookupTexture_mem {ts : List TextureEntry} {key : String}
    {e : TextureEntry} (h : lookupTexture ts key = some e) : e ∈ ts := by
  unfold lookupTexture at h
  exact (List.mem_filter.mp (List.mem_of_getLast?_eq_some h)).1

/-- Resolution equation: no matching entry. -/
theorem getSettingsForTexture_of_none (c : TextureConfig) (p : String)
    (hl : lookupTexture c.textures (textureKey p) = none) :
    getSettingsForTexture c p = c.defaultSettings := by
  unfold getSettingsForTexture
  dsimp only
  rw [hl]

/-- Resolution equation: matching entry opting into defaults. -/
theorem getSettingsForTexture_of_useDefault (c : TextureConfig) (p : String)
    (e : TextureEntry) (hl : lookupTexture c.textures (textureKey p) = some e)
    (hu : e.useDefault = true) :
    getSettingsForTexture c p = c.defaultSettings := by
  unfold getSettingsForTexture
  dsimp only
  rw [hl]
  simp [hu]

/-- Resolution equation: matching entry with custom settings, merged
field-wise over the defaults. -/
theorem getSettingsForTexture_of_custom (c : TextureConfig) (p : String)
    (e : TextureEntry) (hl : lookupTexture c.textures (textureKey p) = some e)
    (hu : e.useDefault = false) :
    getSettingsForTexture c p =
      { maxSize := e.maxSize.orElse (fun _ => c.defaultSettings.maxSize),
        quality := e.quality.orElse (fun _ => c.defaultSettings.quality) } := by
  unfold getSettingsForTexture
  dsimp only
  rw [hl]
  simp [hu]

/-- Introduction rule for the settings validity check. -/
theorem validTextureSettings_of (s : TextureSettings)
    (h1 : ∀ m, s.maxSize = some m → maxSizeEnum.contains m = true)
    (h2 : ∀ q, s.quality = some q →
      (decide (1 ≤ q) && decide (q ≤ 100)) = true) :
    validTextureSettings s = true := by
  rw [validTextureSettings, Bool.and_eq_true_iff]
  constructor
  · cases hm : s.maxSize with
    | none => rfl
    | some m => exact h1 m hm
  · cases hq : s.quality with
    | none => rfl
    | some q => exact h2 q hq

/-- Elimination rules for the settings and entry validity checks. -/
theorem validTextureSettings_maxSize {s : TextureSettings}
    (h : validTextureSettings s = true) :
    ∀ m, s.maxSize = some m → maxSizeEnum.contains m = true := by
  intro m hm
  rw [validTextureSettings, Bool.and_eq_true_iff] at h
  have h1 := h.1
  rw [hm] at h1
  exact h1

theorem validTextureSettings_quality {s : TextureSettings}
    (h : validTextureSettings s = true) :
    ∀ q, s.quality = some q → (decide (1 ≤ q) && decide (q ≤ 100)) = true := by
  intro q hq
  rw [validTextureSettings, Bool.and_eq_true_iff] at h
  have h2 := h.2
  rw [hq] at h2
  exact h2

theorem validTextureEntry_maxSize {e : TextureEntry}
    (h : validTextureEntry e = true) :
    ∀ m, e.maxSize = some m → maxSizeEnum.contains m = true := by
  intro m hm
  rw [validTextureEntry, Bool.and_eq_true_iff] at h
  have h1 := h.1
  rw [hm] at h1
  exact h1

theorem validTextureEntry_quality {e : TextureEntry}
    (h : validTextureEntry e = true) :
    ∀ q, e.quality = some q → (decide (1 ≤ q) && decide (q ≤ 100)) = true := by
  intro q hq
  rw [validTextureEntry, Bool.and_eq_true_iff] at h
  have h2 := h.2
  rw [hq] at h2
  exact h2

/-- C5 (amended): resolved settings satisfy the same field validity the
schema enforces: any present maxSize is enumerated, any present quality lies
in [1,100]. -/
theorem resolved_settings_valid (c : TextureConfig)
    (hc : validTextureConfig c = true) (p : String) :
    validTextureSettings (getSettingsForTexture c p) = true := by
  obtain ⟨hd, hall⟩ := Bool.and_eq_true_iff.mp hc
  cases hl : lookupTexture c.textures (textureKey p) with
  | none => rw [getSettingsForTexture_of_none c p hl]; exact hd
  | some e =>
    cases hu : e.useDefault with
    | true => rw [getSettingsForTexture_of_useDefault c p e hl hu]; exact hd
    | false =>
      rw [getSettingsForTexture_of_custom c p e hl hu]
      have he : validTextureEntry e = true := by
        rw [List.all_eq_true] at hall
        exact hall e (lookupTexture_mem hl)
      apply validTextureSettings_of
      · intro m hm
        cases hem : e.maxSize with
        | some m2 =>
          rw [hem] at hm
          simp only [Option.orElse] at hm
          cases hm
          exact validTextureEntry_maxSize he m hem
        | none =>
          rw [hem] at hm
          simp only [Option.orElse] at hm
          exact validTextureSettings_maxSize hd m hm
      · intro q hq
        cases heq : e.quality with
        | some q2 =>
          rw [heq] at hq
          simp only [Option.orElse] at hq
          cases hq
          exact validTextureEntry_quality he q heq
        | none =>
          rw [heq] at hq
          simp only [Option.orElse] at hq
          exact validTextureSettings_quality hd q hq

/-- Witness for C5 on the hero document. -/
theorem resolved_settings_valid_witness :
    validTextureConfig heroConfig = true ∧
    validTextureSettings (getSettingsForTexture heroConfig "hero.png") = true :=
  ⟨by decide, resolved_settings_valid heroConfig (by decide) "hero.png"⟩

/-- C5 counterexample: a schema-valid document with an absent default
maxSize and a non-integral quality resolves to settings with an absent field
and a non-integral quality. -/
theorem resolved_settings_not_fully_populated :
    validTextureConfig emptyDefaultsConfig = true ∧
    (getSettingsForTexture emptyDefaultsConfig "hero.png").maxSize = none ∧
    (getSettingsForTexture emptyDefaultsConfig "hero.png").quality =
      some (mkRat 101 2) ∧
    (mkRat 101 2).den ≠ 1 := by decide

/-- C6: resolution returns the defaults exactly when no entry matches or the
entry opts into defaults; otherwise each field is the entry's when present,
else the default's. -/
theorem resolution_rules (c : TextureConfig) (p : String) :
    (lookupTexture c.textures (textureKey p) = none →
      getSettingsForTexture c p = c.defaultSettings) ∧
    (∀ e, lookupTexture c.textures (textureKey p) = some e →
      (e.useDefault = true → getSettingsForTexture c p = c.defaultSettings) ∧
      (e.useDefault = false →
        ((e.maxSize = none →
           (getSettingsForTexture c p).maxSize = c.defaultSettings.maxSize) ∧
         (∀ v, e.maxSize = some v →
           (getSettingsForTexture c p).maxSize = some v) ∧
         (e.quality = none →
           (getSettingsForTexture c p).quality = c.defaultSettings.quality) ∧
         (∀ v, e.quality = some v →
           (getSettingsForTexture c p).quality = some v)))) := by
  refine ⟨fun hl => getSettingsForTexture_of_none c p hl,
    fun e hl => ⟨fun hu => getSettingsForTexture_of_useDefault c p e hl hu,
      fun hu => ?_⟩⟩
  rw [getSettingsForTexture_of_custom c p e hl hu]
  refine ⟨fun hm => ?_, fun v hm => ?_, fun hq => ?_, fun v hq => ?_⟩
  · simp [hm, Option.orElse]
  · simp [hm, Option.orElse]
  · simp [hq, Option.orElse]
  · simp [hq, Option.orElse]

/-- Witness for C6 on the hero document. -/
theorem resolution_rules_witness :
    (getSettingsForTexture heroConfig "hero.png").maxSize = some 1024 ∧
    (getSettingsForTexture heroConfig "hero.png").quality = some 90 := by
  have h := (resolution_rules heroConfig "hero.png").2
    { name := "hero", useDefault := false, maxSize := some 1024,
      quality := some 90 } (by decide)
  have h2 := h.2 rfl
  exact ⟨h2.2.1 1024 rfl, h2.2.2.2 90 rfl⟩

/-- C10: the orchestrator substitutes quality 80 and maxSize 512 for absent
resolved fields and passes resolved values through otherwise, so the
optimizer always receives concrete values. -/
theorem optimizer_settings_defaulting (cfg : TextureConfig) (p : String) :
    ((getSettingsForTexture cfg p).quality = none →
      (mkOptimizerSettings (getSettingsForTexture cfg p)
        (detectFormat p)).quality = 80) ∧
    ((getSettingsForTexture cfg p).maxSize = none →
      (mkOptimizerSettings (getSettingsForTexture cfg p)
        (detectFormat p)).maxSize = 512) ∧
    (∀ q, (getSettingsForTexture cfg p).quality = some q →
      (mkOptimizerSettings (getSettingsForTexture cfg p)
        (detectFormat p)).quality = q) ∧
    (∀ m, (getSettingsForTexture cfg p).maxSize = some m →
      (mkOptimizerSettings (getSettingsForTexture cfg p)
        (detectFormat p)).maxSize = m) := by
  refine ⟨fun h => ?_, fun h => ?_, fun q h => ?_, fun m h => ?_⟩ <;>
    simp [mkOptimizerSettings, h]

/-- Witness for C10 on a document with absent default maxSize. -/
theorem optimizer_settings_defaulting_witness :
    (mkOptimizerSettings (getSettingsForTexture emptyDefaultsConfig "bg.jpg")
      (detectFormat "bg.jpg")).maxSize = 512 ∧
    (mkOptimizerSettings (getSettingsForTexture emptyDefaultsConfig "bg.jpg")
      (detectFormat "bg.jpg")).quality = mkRat 101 2 :=
  ⟨(optimizer_settings_defaulting emptyDefaultsConfig "bg.jpg").2.1 (by decide),
   (optimizer_settings_defaulting emptyDefaultsConfig "bg.jpg").2.2.1
     (mkRat 101 2) (by decide)⟩

/-- C4: whenever the backup companion exists, in both modes the backup is
the source of truth and the result is tagged as a re-optimization; the
optimizer is invoked on the backup path, never the live file. -/
theorem backup_is_source_of_truth (opts : ResolvedOptions) (env : FileEnv)
    (p : String) (h : env.backupExists = true) :
    selectSource opts env p =
      Except.ok { sourcePath := backupPathFor p,
                  outputPath :=
                    if opts.inPlaceMode then p else mirrorOutputPath opts p,
                  isReoptimization := true } ∧
    ∀ cfg, processTexture cfg opts env p =
      Except.ok (optimize env
        (mkOptimizerSettings (getSettingsForTexture cfg p) (detectFormat p))
        (backupPathFor p)
        (if opts.inPlaceMode then p else mirrorOutputPath opts p)) := by
  have hsel : selectSource opts env p =
      Except.ok { sourcePath := backupPathFor p,
                  outputPath :=
                    if opts.inPlaceMode then p else mirrorOutputPath opts p,
                  isReoptimization := true } := by
    unfold selectSource
    cases him : opts.inPlaceMode with
    | true => simp [him, h]
    | false => simp [him, h]
  refine ⟨hsel, fun cfg => ?_⟩
  unfold processTexture
  dsimp only
  rw [hsel]

/-- Witness for C4 on an in-place run with an existing backup. -/
theorem backup_is_source_witness :
    selectSource (resolveOptions inPlaceOptions) backupEnv "assets/icon.png" =
      Except.ok { sourcePath := "assets/_originalTexture/icon.png",
                  outputPath := "assets/icon.png",
                  isReoptimization := true } := by
  have h := (backup_is_source_of_truth (resolveOptions inPlaceOptions)
    backupEnv "assets/icon.png" rfl).1
  rw [h]
  decide

/-- When the backup step cannot throw, source selection succeeds. -/
theorem selectSource_isOk (opts : ResolvedOptions) (env : FileEnv) (p : String)
    (hok : opts.inPlaceMode = true → env.backupExists = false →
      env.backupCopy = Except.ok ()) :
    ∃ sp, selectSource opts env p = Except.ok sp := by
  unfold selectSource
  cases him : opts.inPlaceMode with
  | false => cases hbe : env.backupExists <;> simp [him, hbe]
  | true =>
    cases hbe : env.backupExists with
    | true => simp [him, hbe]
    | false =>
      rw [hok him hbe]
      simp [him, hbe]

/-- When the backup step cannot throw, processTexture returns its result. -/
theorem processTexture_isOk (cfg : TextureConfig) (opts : ResolvedOptions)
    (env : FileEnv) (p : String)
    (hok : opts.inPlaceMode = true → env.backupExists = false →
      env.backupCopy = Except.ok ()) :
    processTexture cfg opts env p =
      Except.ok (processTextureResult cfg opts env p) := by
  obtain ⟨sp, hsp⟩ := selectSource_isOk opts env p hok
  unfold processTexture processTextureResult
  dsimp only
  rw [hsp]

/-- Any failed per-file result carries an error message. -/
theorem processTextureResult_error_on_failure (cfg : TextureConfig)
    (opts : ResolvedOptions) (env : FileEnv) (p : String) :
    (processTextureResult cfg opts env p).success = false →
      (processTextureResult cfg opts env p).error.isSome = true := by
  unfold processTextureResult
  dsimp only
  cases hsel : selectSource opts env p with
  | error e => intro _; simp [failedResult]
  | ok sp =>
    unfold optimize
    cases env.readFileStep with
    | error e => intro _; simp [failedResult]
    | ok b =>
      cases env.metadataStep with
      | error e => intro _; simp [failedResult]
      | ok wh =>
        dsimp only
        cases env.encodeStep with
        | error e => intro _; simp [failedResult]
        | ok ob =>
          cases env.writeStep with
          | error e => intro _; simp [failedResult]
          | ok u => intro h; simp at h

/-- C1 (amended): when every backup copy succeeds (or is not needed), the run
returns one result per discovered file in discovery order, and any failed
result carries its error message instead of aborting the run. -/
theorem run_collects_all_results (cfg : TextureConfig) (opts : ResolvedOptions)
    (fsFiles : List String) (envOf : String → FileEnv)
    (hok : ∀ p, opts.inPlaceMode = true → (envOf p).backupExists = false →
      (envOf p).backupCopy = Except.ok ()) :
    processAll cfg opts fsFiles envOf =
      Except.ok ((findTextures fsFiles opts).map
        (fun p => processTextureResult cfg opts (envOf p) p)) ∧
    ∀ p, (processTextureResult cfg opts (envOf p) p).success = false →
      (processTextureResult cfg opts (envOf p) p).error.isSome = true := by
  constructor
  · unfold processAll
    generalize findTextures fsFiles opts = l
    induction l with
    | nil => rfl
    | cons x xs ih =>
      rw [List.mapM_cons, processTexture_isOk cfg opts (envOf x) x (hok x), ih,
        List.map_cons]
      rfl
  · intro p
    exact processTextureResult_error_on_failure cfg opts (envOf p) p

/-- Witness for C1 on a two-file run whose first file fails to decode. -/
theorem run_collects_all_results_witness :
    processAll heroConfig (resolveOptions inPlaceOptions)
      ["assets/bad.png", "assets/good.png"] mixedEnvOf =
      Except.ok ((findTextures ["assets/bad.png", "assets/good.png"]
        (resolveOptions inPlaceOptions)).map
        (fun p => processTextureResult heroConfig (resolveOptions inPlaceOptions)
          (mixedEnvOf p) p)) :=
  (run_collects_all_results heroConfig (resolveOptions inPlaceOptions)
    ["assets/bad.png", "assets/good.png"] mixedEnvOf
    (fun p _ _ => by unfold mixedEnvOf; split <;> rfl)).1

/-- C1 counterexample: a backup-copy failure on the first file aborts the
whole run with that error; no results are collected although the second file
would have succeeded. -/
theorem backup_copy_failure_aborts_run :
    processAll heroConfig (resolveOptions inPlaceOptions)
      ["assets/bad.png", "assets/good.png"] copyFailEnvOf =
      Except.error "EACCES: permission denied" := by decide

/-- Unfolding equations for the segment matcher. -/
theorem globSegsMatch_nil (segs : List String) :
    globSegsMatch [] segs = segs.isEmpty := by
  simp only [globSegsMatch.eq_def]

theorem globSegsMatch_dstar (ps : List String) (segs : List String) :
    globSegsMatch ("**" :: ps) segs =
      (segSuffixes segs).any (fun t => globSegsMatch ps t) := by
  conv_lhs => rw [globSegsMatch.eq_def]
  dsimp only
  rw [if_pos rfl]

theorem globSegsMatch_lit (p : String) (hp : ¬p = "**") (ps : List String) :
    ∀ segs, globSegsMatch (p :: ps) segs =
      (match segs with
       | [] => false
       | s :: rest => segMatch p s && globSegsMatch ps rest) := by
  intro segs
  conv_lhs => rw [globSegsMatch.eq_def]
  simp only [if_neg hp]

/-- The empty suffix is always present. -/
theorem nil_mem_segSuffixes : ∀ segs : List String, [] ∈ segSuffixes segs := by
  intro segs
  induction segs with
  | nil => simp [segSuffixes]
  | cons s rest ih =>
    simp only [segSuffixes, List.mem_cons]
    exact Or.inr ih

/-- A trailing `**` matches anything. -/
theorem globSegsMatch_dstar_only (segs : List String) :
    globSegsMatch ["**"] segs = true := by
  rw [globSegsMatch_dstar]
  apply List.any_eq_true.mpr
  exact ⟨[], nil_mem_segSuffixes segs, by rw [globSegsMatch_nil]; rfl⟩

/-- Dropping a prefix keeps the rest among the suffixes. -/
theorem suffix_mem_segSuffixes : ∀ (pre rest : List String),
    rest ∈ segSuffixes (pre ++ rest) := by
  intro pre
  induction pre with
  | nil =>
    intro rest
    cases rest with
    | nil => simp [segSuffixes]
    | cons s r => simp [segSuffixes]
  | cons s pre ih =>
    intro rest
    simp only [List.cons_append, segSuffixes, List.mem_cons]
    right
    exact ih rest

/-- The reserved-backup exclusion pattern matches any path with a
`_originalTexture` segment. -/
theorem backup_segs_match (pre post : List String) :
    globSegsMatch ["**", "_originalTexture", "**"]
      (pre ++ "_originalTexture" :: post) = true := by
  rw [globSegsMatch_dstar]
  apply List.any_eq_true.mpr
  refine ⟨"_originalTexture" :: post, suffix_mem_segSuffixes pre _, ?_⟩
  rw [globSegsMatch_lit "_originalTexture" (by decide) ["**"]]
  have h1 : segMatch "_originalTexture" "_originalTexture" = true := by decide
  simp only [h1, globSegsMatch_dstar_only, Bool.and_self]

/-- Any path inside a backup folder matches the backup exclusion pattern. -/
theorem backupPattern_matches (p : String) (h : inBackupDir p = true) :
    globMatch "**/_originalTexture/**" p = true := by
  unfold globMatch
  rw [show pathSegments "**/_originalTexture/**" =
    ["**", "_originalTexture", "**"] from by decide]
  unfold inBackupDir at h
  have hmem : "_originalTexture" ∈ (pathSegments p).dropLast := by
    have := List.elem_iff.mp h
    exact this
  obtain ⟨pre, post, hsplit⟩ := List.append_of_mem hmem
  have hne : pathSegments p ≠ [] := by
    intro hemp
    rw [hemp] at hsplit
    simp at hsplit
  have hfull : pathSegments p =
      pre ++ "_originalTexture" ::
        (post ++ [(pathSegments p).getLast hne]) := by
    conv_lhs => rw [← List.dropLast_append_getLast hne]
    rw [hsplit]
    simp
  rw [hfull]
  exact backup_segs_match pre _

/-- Membership through the insertion sort. -/
theorem mem_insertSorted {a x : String} :
    ∀ {l : List String}, a ∈ insertSorted x l → a = x ∨ a ∈ l := by
  intro l
  induction l with
  | nil => intro h; simp [insertSorted] at h; exact Or.inl h
  | cons b rest ih =>
    intro h
    rw [insertSorted] at h
    by_cases hle : stringLe x b
    · rw [if_pos hle] at h
      rcases List.mem_cons.mp h with h1 | h1
      · exact Or.inl h1
      · exact Or.inr h1
    · rw [if_neg hle] at h
      rcases List.mem_cons.mp h with h1 | h1
      · exact Or.inr (List.mem_cons.mpr (Or.inl h1))
      · rcases ih h1 with h2 | h2
        · exact Or.inl h2
        · exact Or.inr (List.mem_cons.mpr (Or.inr h2))

theorem mem_sortStrings {a : String} :
    ∀ {l : List String}, a ∈ sortStrings l → a ∈ l := by
  intro l
  induction l with
  | nil => intro h; exact absurd h (by simp [sortStrings])
  | cons x rest ih =>
    intro h
    rcases mem_insertSorted h with h1 | h1
    · exact List.mem_cons.mpr (Or.inl h1)
    · exact List.mem_cons.mpr (Or.inr (ih h1))

theorem mem_dedupAux {a : String} :
    ∀ {seen l : List String}, a ∈ dedupAux seen l → a ∈ l := by
  intro seen l
  induction l generalizing seen with
  | nil => intro h; exact absurd h (by simp [dedupAux])
  | cons x rest ih =>
    intro h
    rw [dedupAux] at h
    by_cases hc : seen.contains x
    · rw [if_pos hc] at h
      exact List.mem_cons.mpr (Or.inr (ih h))
    · rw [if_neg hc] at h
      rcases List.mem_cons.mp h with h1 | h1
      · exact List.mem_cons.mpr (Or.inl h1)
      · exact List.mem_cons.mpr (Or.inr (ih h1))

/-- A discovered file matched some include pattern and no exclusion. -/
theorem mem_findTextures {p : String} {fsFiles : List String}
    {opts : ResolvedOptions} (h : p ∈ findTextures fsFiles opts) :
    ∃ pat ∈ opts.patterns, p ∈ fsFiles ∧ globMatch pat p = true ∧
      (opts.exclude.any (fun e => globMatch e p)) = false := by
  unfold findTextures at h
  have h1 := mem_dedupAux (mem_sortStrings h)
  obtain ⟨pat, hpat, hmem⟩ := List.mem_flatMap.mp h1
  obtain ⟨hfs, hcond⟩ := List.mem_filter.mp hmem
  obtain ⟨hmat, hexc⟩ := Bool.and_eq_true_iff.mp hcond
  refine ⟨pat, hpat, hfs, hmat, ?_⟩
  cases hany : opts.exclude.any (fun e => globMatch e p) with
  | false => rfl
  | true => rw [hany] at hexc; simp at hexc

/-- C9 (amended): when the caller supplies no exclusion patterns, the
defaults apply and no discovered file lies inside a backup folder. -/
theorem default_exclusions_skip_backup_dir (o : BatchProcessorOptions)
    (hexc : o.exclude = none) (fsFiles : List String) (p : String)
    (hp : p ∈ findTextures fsFiles (resolveOptions o)) :
    inBackupDir p = false := by
  obtain ⟨pat, hpat, hfs, hmat, hexcl⟩ := mem_findTextures hp
  have hres : (resolveOptions o).exclude = defaultExclude := by
    simp [resolveOptions, hexc]
  rw [hres] at hexcl
  cases hb : inBackupDir p with
  | false => rfl
  | true =>
    exfalso
    have hmatch := backupPattern_matches p hb
    have : defaultExclude.any (fun e => globMatch e p) = true := by
      apply List.any_eq_true.mpr
      exact ⟨"**/_originalTexture/**", by simp [defaultExclude], hmatch⟩
    rw [this] at hexcl
    simp at hexcl

/-- Witness for C9 on a defaulted one-file run. -/
theorem default_exclusions_skip_backup_dir_witness :
    inBackupDir "assets/hero.jpeg" = false :=
  default_exclusions_skip_backup_dir inPlaceOptions rfl
    ["assets/hero.jpeg"] "assets/hero.jpeg" (by decide)

/-- C9 counterexample: a caller-supplied exclusion list replaces the default
wholesale, so with exclude = [] a file inside the reserved backup
subdirectory is discovered as a live file. -/
theorem caller_exclusions_override_backup_exclusion :
    findTextures ["assets/_originalTexture/icon.png"]
      (resolveOptions noExcludeOptions) =
      ["assets/_originalTexture/icon.png"] ∧
    inBackupDir "assets/_originalTexture/icon.png" = true := by decide

/-- C3 (amended): discovery performs no backup-only detection: under default
exclusions a filesystem containing only backup-folder files yields an empty
discovery set, so backup contents are never processed. -/
theorem no_backup_only_discovery (o : BatchProcessorOptions)
    (hexc : o.exclude = none) (fsFiles : List String)
    (hfs : ∀ p ∈ fsFiles, inBackupDir p = true) :
    findTextures fsFiles (resolveOptions o) = [] := by
  unfold findTextures
  have hfilter : ∀ pattern, fsFiles.filter (fun f =>
      globMatch pattern f &&
        !((resolveOptions o).exclude.any (fun e => globMatch e f))) = [] := by
    intro pattern
    apply List.filter_eq_nil_iff.mpr
    intro f hf
    have hmatch := backupPattern_matches f (hfs f hf)
    have hany : (resolveOptions o).exclude.any (fun e => globMatch e f) = true := by
      apply List.any_eq_true.mpr
      refine ⟨"**/_originalTexture/**", ?_, hmatch⟩
      simp [resolveOptions, hexc, defaultExclude]
    simp [hany]
  have hflat : ∀ pats : List String, pats.flatMap (fun pattern =>
      fsFiles.filter (fun f =>
        globMatch pattern f &&
          !((resolveOptions o).exclude.any (fun e => globMatch e f)))) = [] := by
    intro pats
    induction pats with
    | nil => rfl
    | cons a l ih => rw [List.flatMap_cons, hfilter, ih]; rfl
  rw [hflat]
  rfl

/-- Witness for C3 on a backup-only listing. -/
theorem no_backup_only_discovery_witness :
    findTextures ["assets/_originalTexture/icon.png"]
      (resolveOptions inPlaceOptions) = [] :=
  no_backup_only_discovery inPlaceOptions rfl
    ["assets/_originalTexture/icon.png"] (by decide)

/-- C3 counterexample: with a backup-only directory (live file absent), the
run discovers nothing and produces zero results: the backup contents are not
optimized. -/
theorem backup_only_contents_not_processed :
    findTextures ["assets/_originalTexture/icon.png"]
      (resolveOptions inPlaceOptions) = [] ∧
    processAll heroConfig (resolveOptions inPlaceOptions)
      ["assets/_originalTexture/icon.png"] (fun _ => okFileEnv) =
      Except.ok [] := by decide
